import Mathlib

/-!
Verification of the miniapp preview host orchestrator
(`orchestrator/index.js`): preview registry, port allocator, process
supervisor callbacks, reverse-proxy gateway, and idle reaper, modelled as a
shallow embedding.  Configuration is fixed to the local-environment
defaults (`IS_RAILWAY = false`, `BASE_PORT = 4000`,
`PREVIEWS_ROOT = "/srv/previews"`), matching the code with no overriding
environment variables.
-/

namespace Orch

/-- Process handles (`ChildProcess` objects) are abstracted as numeric ids. -/
abbrev Pid := Nat

/-- A submitted file: `{path, content}`. -/
abbrev JsFile := String × String

/-- `makeRing(cap = 4000)`: a capped ring of log chunks; `push` appends and
drops the oldest chunk when over capacity, `text` joins all chunks. -/
structure Ring where
  cap : Nat
  buf : List String
deriving DecidableEq, Repr

def Ring.push (r : Ring) (s : String) : Ring :=
  let b := r.buf ++ [s]
  { r with buf := if r.cap < b.length then b.tail else b }

def Ring.text (r : Ring) : String := String.join r.buf

def makeRing : Ring := { cap := 4000, buf := [] }

/-- Preview status strings used by the code:
`"starting" | "running" | "crashed" | "deployed"`. -/
inductive Status
  | starting
  | running
  | crashed
  | deployed
deriving DecidableEq, Repr

def statusName : Status → String
  | .starting => "starting"
  | .running => "running"
  | .crashed => "crashed"
  | .deployed => "deployed"

/-- One registry record:
`{ port, proc, dir, lastHit, status, logs, lastError, externalPlatform, deploymentUrl }`. -/
structure PreviewRec where
  port : Option Nat
  proc : Option Pid
  dir : String
  lastHit : Nat
  status : Status
  logs : Ring
  lastError : Option String
  externalPlatform : Option String := none
  deploymentUrl : Option String := none
deriving DecidableEq, Repr

/-- The `previews` JS `Map`, embedded as an insertion-ordered association
list (JS `Map` iterates in insertion order; `set` on an existing key
replaces in place). -/
abbrev Registry := List (String × PreviewRec)

/-- `previews.has(id)`. -/
def regHas (m : Registry) (id : String) : Bool :=
  m.any fun e => e.1 == id

/-- `previews.get(id)`. -/
def regGet (m : Registry) (id : String) : Option PreviewRec :=
  match m.find? (fun e => e.1 == id) with
  | some e => some e.2
  | none => none

/-- The per-entry replacement used by `regSet` on an existing key. -/
def setEntry (id : String) (r : PreviewRec) (e : String × PreviewRec) :
    String × PreviewRec :=
  if e.1 == id then (id, r) else e

/-- `previews.set(id, r)`: replace in place when the key is present,
append otherwise. -/
def regSet (m : Registry) (id : String) (r : PreviewRec) : Registry :=
  if regHas m id then m.map (setEntry id r) else m ++ [(id, r)]

/-- `previews.delete(id)`. -/
def regDelete (m : Registry) (id : String) : Registry :=
  m.filter fun e => !(e.1 == id)

def keysOf (m : Registry) : List String := m.map Prod.fst

/-- The multiset of ports currently held by live records. -/
def portsOf (m : Registry) : List Nat := m.filterMap fun e => e.2.port

/-- Registry well-formedness: at most one record per id, and no two
records simultaneously holding a port share a port. -/
def InvReg (m : Registry) : Prop := (keysOf m).Nodup ∧ (portsOf m).Nodup

/- ========= Config defaults ========= -/

def basePort : Nat := 4000

def previewsRoot : String := "/srv/previews"

def previewDir (id : String) : String := previewsRoot ++ "/" ++ id

/- ========= Port allocator (`nextFreePort`) ========= -/

/-- `[...previews.values()].some(p => p.port === cand)`. -/
def portTaken (m : Registry) (c : Nat) : Bool :=
  m.any fun e => e.2.port == some c

/-- The candidate examined at loop index `i`:
`((lastPort + 1 - BASE_PORT + i) % 2000) + BASE_PORT`.  All reachable
states keep `lastPort + 1 ≥ basePort`, so `Nat` subtraction agrees with
the JS arithmetic. -/
def candAt (lastPort i : Nat) : Nat :=
  ((lastPort + 1 - basePort + i) % 2000) + basePort

/-- The scan loop of `nextFreePort`, with explicit remaining fuel. -/
def scanPorts (m : Registry) (lastPort : Nat) : Nat → Nat → Option Nat
  | _, 0 => none
  | i, fuel + 1 =>
    let c := candAt lastPort i
    if portTaken m c then scanPorts m lastPort (i + 1) fuel else some c

/-- `nextFreePort()`: scan a 2000-port window from the rolling cursor for
the first candidate not present in the registry's port set; `none` models
the thrown `"No free ports available"`. -/
def nextFreePort (m : Registry) (lastPort : Nat) : Option Nat :=
  scanPorts m lastPort 0 2000

/- ========= Orchestrator state ========= -/

/-- The mutable module state: the `previews` map and the allocator cursor
`lastPort`. -/
structure St where
  previews : Registry
  lastPort : Nat
deriving DecidableEq, Repr

/-- Boot state: empty registry, `lastPort = BASE_PORT - 1`. -/
def initSt : St := { previews := [], lastPort := basePort - 1 }

/- ========= First registry lemmas ========= -/

theorem regHas_iff_mem_keys (m : Registry) (id : String) :
    regHas m id = true ↔ id ∈ keysOf m := by
  induction m with
  | nil => simp [regHas, keysOf]
  | cons e t ih =>
    simp only [regHas, List.any_cons, keysOf, List.map_cons, List.mem_cons] at *
    constructor
    · intro h
      rcases Bool.or_eq_true_iff.mp h with h1 | h2
      · exact Or.inl (beq_iff_eq.mp h1).symm
      · exact Or.inr (ih.mp h2)
    · intro h
      rcases h with h1 | h2
      · exact Bool.or_eq_true_iff.mpr (Or.inl (beq_iff_eq.mpr h1.symm))
      · exact Bool.or_eq_true_iff.mpr (Or.inr (ih.mpr h2))

theorem portTaken_iff_mem_ports (m : Registry) (c : Nat) :
    portTaken m c = true ↔ c ∈ portsOf m := by
  induction m with
  | nil => simp [portTaken, portsOf]
  | cons e t ih =>
    simp only [portTaken, List.any_cons] at *
    constructor
    · intro h
      rcases Bool.or_eq_true_iff.mp h with h1 | h2
      · have : e.2.port = some c := beq_iff_eq.mp h1
        simp [portsOf, List.filterMap_cons, this]
      · have := ih.mp h2
        simp only [portsOf, List.filterMap_cons]
        cases e.2.port <;> simp [portsOf] at this ⊢ <;> simp [this]
    · intro h
      simp only [portsOf, List.filterMap_cons] at h
      cases hp : e.2.port with
      | none =>
        rw [hp] at h
        exact Bool.or_eq_true_iff.mpr (Or.inr (ih.mpr h))
      | some v =>
        rw [hp] at h
        rcases List.mem_cons.mp h with h1 | h2
        · exact Bool.or_eq_true_iff.mpr (Or.inl (by simp [hp, h1]))
        · exact Bool.or_eq_true_iff.mpr (Or.inr (ih.mpr h2))

/-- Whatever `nextFreePort` returns passed the freeness check. -/
theorem scanPorts_not_taken (m : Registry) (lastPort : Nat) :
    ∀ fuel i c, scanPorts m lastPort i fuel = some c → portTaken m c = false := by
  intro fuel
  induction fuel with
  | zero => intro i c h; simp [scanPorts] at h
  | succ k ih =>
    intro i c h
    simp only [scanPorts] at h
    by_cases ht : portTaken m (candAt lastPort i) = true
    · rw [if_pos ht] at h
      exact ih (i + 1) c h
    · rw [if_neg ht] at h
      cases h
      exact Bool.of_not_eq_true ht

theorem nextFreePort_not_taken (m : Registry) (lastPort c : Nat)
    (h : nextFreePort m lastPort = some c) : portTaken m c = false :=
  scanPorts_not_taken m lastPort 2000 0 c h

theorem nextFreePort_not_mem (m : Registry) (lastPort c : Nat)
    (h : nextFreePort m lastPort = some c) : c ∉ portsOf m := by
  intro hc
  have := (portTaken_iff_mem_ports m c).mpr hc
  rw [nextFreePort_not_taken m lastPort c h] at this
  exact Bool.false_ne_true this

/- ========= Requests, responses, side effects ========= -/

/-- An inbound HTTP request as the handlers see it. -/
structure Req where
  method : String
  headers : List (String × String)
  body : String
  url : String
deriving DecidableEq, Repr

/-- A terminal HTTP response produced by a handler. -/
structure Response where
  code : Nat
  body : String
  logsField : Option String := none
  portField : Option Nat := none
deriving DecidableEq, Repr

/-- Externally observable side effects of one operation: files written
(per target directory), processes spawned, kill signals sent, directories
removed from disk. -/
structure Effects where
  writes : List (String × List JsFile) := []
  spawned : List Pid := []
  killed : List Pid := []
  wiped : List String := []
deriving DecidableEq, Repr

/-- JS `s.slice(-n)`: the trailing `n` characters (the whole string when
shorter). -/
def jsSliceLast (n : Nat) (s : String) : String :=
  String.mk (s.data.drop (s.data.length - n))

/- ========= URL rewriting for the HTTP proxy ========= -/

/-- JS `String.prototype.replace` with a string pattern: remove the first
(leftmost) occurrence of `pat`, or return the string unchanged when there
is none. -/
def replaceFirstL (pat : List Char) : List Char → List Char
  | [] => []
  | c :: cs =>
    if pat.isPrefixOf (c :: cs) then (c :: cs).drop pat.length
    else c :: replaceFirstL pat cs

/-- JS `x || "/"`: the empty string is falsy. -/
def jsOrSlash (s : List Char) : List Char := if s = [] then ['/'] else s

/-- `req.url = req.url.replace(\x60/p/${id}\x60, "") || "/"`. -/
def rewriteUrl (url id : String) : String :=
  String.mk (jsOrSlash (replaceFirstL ("/p/" ++ id).data url.data))

/- ========= Provisioning workflow (create / patch) ========= -/

/-- The record committed by the create path just before `startDev`
(`status: "starting"`), with the process handle filled in by the
assignment `rec.proc = proc` that immediately follows the spawn. -/
def newRec (port : Nat) (pid : Pid) (dir : String) (now : Nat) (logs : Ring) :
    PreviewRec :=
  { port := some port, proc := some pid, dir := dir, lastHit := now,
    status := .starting, logs := logs, lastError := none }

/-- Output of the fresh-create path of `POST /previews` up to and
including the spawn (source lines 777-803). -/
structure CreateOut where
  st : St
  port : Nat
  eff : Effects
deriving DecidableEq, Repr

/-- Fresh-create branch of `POST /previews`: only taken when
`previews.has(id)` is false; copies the boilerplate, writes the submitted
files, installs, allocates a port, registers the record, then spawns.
`logs` is the ring after the captured install/dev output; `none` models
the thrown port-exhaustion error. -/
def createLocal (s : St) (id : String) (files : List JsFile) (logs : Ring)
    (pid : Pid) (now : Nat) : Option CreateOut :=
  if regHas s.previews id then none
  else
    match nextFreePort s.previews s.lastPort with
    | none => none
    | some port =>
      let dir := previewDir id
      some { st := { previews := regSet s.previews id (newRec port pid dir now logs),
                     lastPort := port },
             port := port,
             eff := { writes := [(dir, files)], spawned := [pid] } }

/-- In-place status update (`rec.status = "running"` / `p.status = "running"`). -/
def touchStatus (s : St) (id : String) (st2 : Status) : St :=
  match regGet s.previews id with
  | none => s
  | some p => { s with previews := regSet s.previews id { p with status := st2 } }

/-- `POST /previews` fresh create with `wait` enabled: after the spawn,
`waitForReady` either succeeds (`ready = true`: status flips to running,
200 response) or times out (`ready = false`: the record is deleted and a
500 response carrying `logs.text().slice(-4000)` is returned; no kill is
issued). -/
def createWithWait (s : St) (id : String) (files : List JsFile) (logs : Ring)
    (pid : Pid) (now : Nat) (ready : Bool) : Option (St × Response × Effects) :=
  match createLocal s id files logs pid now with
  | none => none
  | some o =>
    if ready then
      some (touchStatus o.st id .running,
            { code := 200, body := "/p/" ++ id, portField := some o.port }, o.eff)
    else
      some ({ o.st with previews := regDelete o.st.previews id },
            { code := 500, body := "dev did not become ready in time",
              logsField := some (jsSliceLast 4000 logs.text) },
            o.eff)

/-- Patch branch of `POST /previews` for an existing non-external record
in the local environment (source lines 751-761): write the files into the
record's directory, refresh `lastHit`, answer with the current status and
port.  No allocation, no spawn, no kill. -/
def patchLocal (s : St) (id : String) (files : List JsFile) (now : Nat) :
    Option (St × Response × Effects) :=
  match regGet s.previews id with
  | none => none
  | some p =>
    if p.externalPlatform.isSome then none
    else
      some ({ s with previews := regSet s.previews id { p with lastHit := now } },
            { code := 200, body := "/p/" ++ id, portField := p.port },
            { writes := [(p.dir, files)] })

/-- Patch branch for a record with `externalPlatform` set: redeploy and
replace `deploymentUrl`, refresh `lastHit` (source lines 715-742). -/
def patchExternal (s : St) (id : String) (newUrl : String) (now : Nat) :
    Option St :=
  match regGet s.previews id with
  | none => none
  | some p =>
    if p.externalPlatform.isSome then
      some { s with previews :=
               regSet s.previews id { p with lastHit := now, deploymentUrl := some newUrl } }
    else none

/-- `handleExternalDeployment` registration (source lines 557-570):
unconditional `previews.set` of a record with no port and no process. -/
def registerExternal (s : St) (id platform url dir : String) (logs : Ring)
    (now : Nat) : St :=
  let r : PreviewRec :=
    { port := none, proc := none, dir := dir, lastHit := now,
      status := .deployed, logs := logs, lastError := none,
      externalPlatform := some platform, deploymentUrl := some url }
  { s with previews := regSet s.previews id r }

/-- `DELETE /previews/:id`: kill the process if a record exists (errors
swallowed), delete the record, wipe the directory; always 200. -/
def deletePreview (s : St) (id : String) : St × Response × Effects :=
  match regGet s.previews id with
  | none => (s, { code := 200, body := "ok" }, { wiped := [previewDir id] })
  | some p =>
    ({ s with previews := regDelete s.previews id },
     { code := 200, body := "ok" },
     { killed := p.proc.toList, wiped := [previewDir id] })

/-- The `proc.on("exit", ...)` handler installed by `startDev` (source
lines 392-398): look up whatever record is currently registered under
`id`; if none, do nothing; otherwise flip its status to crashed, record
the exit code/signal in `lastError`, and delete it from the registry.
The second component is the final state of the mutated record object. -/
def procExit (s : St) (id : String) (code sig : String) :
    St × Option PreviewRec :=
  match regGet s.previews id with
  | none => (s, none)
  | some p =>
    let msg := "dev exited code=" ++ code ++ " signal=" ++ sig
    let p2 : PreviewRec := { p with status := .crashed, lastError := some msg }
    ({ s with previews := regDelete s.previews id }, some p2)

/- ========= Idle reaper ========= -/

def idleLimit : Nat := 30 * 60 * 1000

/-- `now - p.lastHit > 30 * 60 * 1000` (`Nat` subtraction truncates at 0
exactly like the JS comparison rejects negative differences). -/
def staleRec (now : Nat) (p : PreviewRec) : Bool :=
  decide (idleLimit < now - p.lastHit)

/-- One tick of the idle reaper (source lines 1058-1069): records idle for
more than 30 minutes get a SIGTERM attempt on their process (errors
ignored, absent processes included) and are deleted; the directory is
never touched. -/
def reapTick (s : St) (now : Nat) : St × Effects :=
  ({ s with previews := s.previews.filter fun e => !(staleRec now e.2) },
   { killed := (s.previews.filter fun e => staleRec now e.2).filterMap
       fun e => e.2.proc })

/- ========= Reverse-proxy gateway ========= -/

/-- Outcome of one `app.use("/p/:id")` invocation: the new state, a
terminal response when one was sent, the proxied request and its target
port when the request was forwarded, side effects, and whether an
exception escaped the handler (port exhaustion throws in an async
handler, so no response is ever written). -/
structure GateOut where
  st : St
  resp : Option Response
  proxied : Option (Nat × Req)
  eff : Effects := {}
  threw : Bool := false
deriving DecidableEq, Repr

/-- The tail of the gateway handler once a record `p` is at hand (source
lines 927-947, local environment): if the record holds a port, rewrite
`req.url`, refresh `lastHit` and forward to `http://127.0.0.1:{port}`;
otherwise 404 "Preview not available". -/
def proxyTail (s : St) (id : String) (p : PreviewRec) (req : Req) (now : Nat) :
    GateOut :=
  match p.port with
  | some pt =>
    { st := { s with previews := regSet s.previews id { p with lastHit := now } },
      resp := none,
      proxied := some (pt, { req with url := rewriteUrl req.url id }) }
  | none => { st := s, resp := some { code := 404, body := "Preview not available" },
              proxied := none }

/-- The tail of the self-healing branch after the record is registered
and the process spawned: `waitForReady(port, 60000)` either fails (the
record is deleted and a transient 503 is sent) or succeeds (status flips
to running and execution falls through to the proxy). -/
def healTail (s1 : St) (id : String) (req : Req) (now : Nat) (rdy : Bool)
    (eff : Effects) : GateOut :=
  if rdy then
    match regGet (touchStatus s1 id .running).previews id with
    | some p2 => { proxyTail (touchStatus s1 id .running) id p2 req now with eff := eff }
    | none => { st := touchStatus s1 id .running, resp := none, proxied := none, eff := eff }
  else
    let r503 : Response :=
      { code := 503,
        body := "Preview is starting. Please retry in a few seconds." }
    { st := { s1 with previews := regDelete s1.previews id },
      resp := some r503, proxied := none, eff := eff }

/-- `app.use("/p/:id")` (source lines 876-948), local environment.  Oracle
parameters stand for the outcomes of the external steps: `dirExists`
(`existsSync(dir)`), `needsInstall` (`needInstall(dir)`), `installOk`
(whether `npmInstall` succeeded, with `installErr` its failure message),
`ready` (`waitForReady(port, 60000)`), `pid` the spawned process and
`logs` the captured ring. -/
def gatewayHit (s : St) (id : String) (req : Req) (logs : Ring) (pid : Pid)
    (now : Nat) (dirExists needsInstall installOk ready : Bool)
    (installErr : String) : GateOut :=
  match regGet s.previews id with
  | some p => proxyTail s id p req now
  | none =>
    if dirExists then
      if needsInstall && !installOk then
        { st := s,
          resp := some { code := 500, body := "Auto-install failed: " ++ installErr },
          proxied := none }
      else
        match nextFreePort s.previews s.lastPort with
        | none => { st := s, resp := none, proxied := none, threw := true }
        | some port =>
          let dir := previewDir id
          let s1 : St := { previews := regSet s.previews id (newRec port pid dir now logs),
                           lastPort := port }
          healTail s1 id req now ready { spawned := [pid] }
    else
      { st := s, resp := some { code := 404, body := "Preview not found" },
        proxied := none }

/- ========= WebSocket upgrade ========= -/

inductive WsAct
  | destroy
  | forward (target : Option Nat) (forwardedUrl : String)
deriving DecidableEq, Repr

/-- The regex `^\/p\/([^/]+)` applied to `req.url`: the capture is the
maximal nonempty run of non-slash characters after a literal `/p/`. -/
def wsMatchL : List Char → Option (List Char)
  | '/' :: 'p' :: '/' :: rest =>
    let idc := rest.takeWhile fun c => !(c == '/')
    if idc = [] then none else some idc
  | _ => none

/-- `server.on("upgrade", ...)` (source lines 951-958): destroy the socket
when the URL does not match or no record exists; otherwise splice to
`ws://127.0.0.1:{p.port}` with `req.url` unmodified.  The registry is
never touched. -/
def wsUpgrade (s : St) (url : String) : St × WsAct :=
  match wsMatchL url.data with
  | none => (s, .destroy)
  | some idc =>
    match regGet s.previews (String.mk idc) with
    | none => (s, .destroy)
    | some p => (s, .forward p.port url)

/- ========= Auth ========= -/

/-- `requireAuth` (source lines 403-408): with no configured token every
request passes; otherwise the `Authorization` header must be exactly
`Bearer <token>`; `none` means `next()` was called. -/
def requireAuth (token authHeader : String) : Option Response :=
  if token = "" then none
  else if authHeader = "Bearer " ++ token then none
  else some { code := 401, body := "unauthorized" }

/-- The HTTP surface relevant to auth. -/
inductive Route
  | deployR
  | createR
  | deleteR
  | statusR
  | logsR
  | executeR
  | trafficR
  | wsR
deriving DecidableEq, Repr

/-- Which routes have the `requireAuth` middleware installed in the source:
`POST /deploy`, `POST /previews`, `DELETE /previews/:id` and
`POST /previews/:id/execute` do; `GET /previews/:id/status`,
`GET /previews/:id/logs`, `app.use("/p/:id")` and the upgrade handler do
not. -/
def routeGuarded : Route → Bool
  | .deployR => true
  | .createR => true
  | .deleteR => true
  | .executeR => true
  | .statusR => false
  | .logsR => false
  | .trafficR => false
  | .wsR => false

/-- Route dispatch: guarded routes run `requireAuth` first and stop at its
401; unguarded routes go straight to their handler. -/
def dispatch (r : Route) (token authHeader : String) (handlerResp : Response) :
    Response :=
  if routeGuarded r then
    match requireAuth token authHeader with
    | some resp => resp
    | none => handlerResp
  else handlerResp

/-- `GET /previews/:id/status` (source lines 841-850): no auth check. -/
def statusEndpoint (s : St) (id : String) : Response :=
  match regGet s.previews id with
  | none => { code := 404, body := "not_found" }
  | some p => { code := 200, body := statusName p.status, portField := p.port }

/-- `GET /previews/:id/logs` (source lines 852-856): no auth check. -/
def logsEndpoint (s : St) (id : String) : Response :=
  match regGet s.previews id with
  | none => { code := 404, body := "not_found" }
  | some p => { code := 200, body := p.logs.text }

/- ========= Registry lemmas ========= -/

theorem regGet_none_of_regHas_false {m : Registry} {id : String}
    (h : regHas m id = false) : regGet m id = none := by
  induction m with
  | nil => rfl
  | cons e t ih =>
    simp only [regHas, List.any_cons, Bool.or_eq_false_iff] at h
    simp only [regGet, List.find?_cons, h.1]
    have := ih (by simp [regHas, h.2])
    simpa [regGet] using this

theorem regHas_true_of_regGet {m : Registry} {id : String} {p : PreviewRec}
    (h : regGet m id = some p) : regHas m id = true := by
  by_cases hh : regHas m id = true
  · exact hh
  · rw [regGet_none_of_regHas_false (Bool.of_not_eq_true hh)] at h
    cases h

theorem regGet_regSet_self (m : Registry) (id : String) (r : PreviewRec) :
    regGet (regSet m id r) id = some r := by
  by_cases hh : regHas m id = true
  · rw [regSet, if_pos hh]
    induction m with
    | nil => simp [regHas] at hh
    | cons e t ih =>
      by_cases he : (e.1 == id) = true
      · simp [regGet, setEntry, List.find?_cons, he]
      · have ht : regHas t id = true := by
          simp only [regHas, List.any_cons, he, Bool.false_or] at hh
          exact hh
        simp only [List.map_cons]
        have hs : setEntry id r e = e := by simp [setEntry, he]
        rw [hs]
        simp only [regGet, List.find?_cons, he]
        exact ih ht
  · rw [regSet, if_neg hh]
    have hh2 : regHas m id = false := Bool.of_not_eq_true hh
    induction m with
    | nil => simp [regGet, List.find?_cons]
    | cons e t ih =>
      simp only [regHas, List.any_cons, Bool.or_eq_false_iff] at hh2
      simp only [List.cons_append, regGet, List.find?_cons, hh2.1]
      have := ih (by simp [regHas, hh2.2]) (by simp [regHas, hh2.2])
      simpa [regGet] using this

theorem regGet_regDelete_self (m : Registry) (id : String) :
    regGet (regDelete m id) id = none := by
  have : ∀ e ∈ regDelete m id, ¬ ((e.1 == id) = true) := by
    intro e he
    have := List.of_mem_filter he
    simp only [Bool.not_eq_true'] at this
    simp [this]
  simp only [regGet]
  rw [List.find?_eq_none.mpr this]

theorem mem_of_regGet {m : Registry} {id : String} {p : PreviewRec}
    (h : regGet m id = some p) : (id, p) ∈ m := by
  induction m with
  | nil => cases h
  | cons e t ih =>
    by_cases he : (e.1 == id) = true
    · simp only [regGet, List.find?_cons, he] at h
      cases h
      obtain ⟨e1, e2⟩ := e
      have h1 : e1 = id := beq_iff_eq.mp he
      subst h1
      exact List.mem_cons_self _ _
    · simp only [regGet, List.find?_cons, he] at h
      exact List.mem_cons_of_mem e (ih h)

/-- Keys are unchanged by an in-place `set`. -/
theorem keysOf_map_setEntry (m : Registry) (id : String) (r : PreviewRec) :
    keysOf (m.map (setEntry id r)) = keysOf m := by
  induction m with
  | nil => rfl
  | cons e t ih =>
    simp only [List.map_cons, keysOf] at *
    rw [ih]
    by_cases he : (e.1 == id) = true
    · have : e.1 = id := beq_iff_eq.mp he
      simp [setEntry, he, this]
    · simp [setEntry, he]

theorem keysOf_append_single (m : Registry) (id : String) (r : PreviewRec) :
    keysOf (m ++ [(id, r)]) = keysOf m ++ [id] := by
  simp [keysOf]

theorem portsOf_append_single (m : Registry) (id : String) (r : PreviewRec) :
    portsOf (m ++ [(id, r)]) = portsOf m ++ r.port.toList := by
  cases hp : r.port <;> simp [portsOf, List.filterMap_append, hp]

/-- Entries whose key is absent are untouched by the `set` map. -/
theorem map_setEntry_of_not_mem {m : Registry} {id : String} (r : PreviewRec)
    (h : id ∉ keysOf m) : m.map (setEntry id r) = m := by
  induction m with
  | nil => rfl
  | cons e t ih =>
    simp only [keysOf, List.map_cons, List.mem_cons, not_or] at h
    have he : (e.1 == id) = false := by
      rw [beq_eq_false_iff_ne]
      exact fun hh => h.1 hh.symm
    simp only [List.map_cons]
    rw [ih (by simpa [keysOf] using h.2)]
    simp [setEntry, he]

/-- Replacing a record in place with one holding no port can only shrink
the port multiset. -/
theorem portsOf_map_setEntry_sublist (m : Registry) (id : String)
    {r : PreviewRec} (h : r.port = none) :
    List.Sublist (portsOf (m.map (setEntry id r))) (portsOf m) := by
  induction m with
  | nil => simp
  | cons e t ih =>
    simp only [List.map_cons]
    by_cases he : (e.1 == id) = true
    · have hse : setEntry id r e = (id, r) := by simp [setEntry, he]
      rw [hse]
      simp only [portsOf, List.filterMap_cons, h]
      cases hp : e.2.port
      · exact ih
      · exact List.Sublist.trans ih (List.sublist_cons_self _ _)
    · have hse : setEntry id r e = e := by simp [setEntry, he]
      rw [hse]
      simp only [portsOf, List.filterMap_cons]
      cases hp : e.2.port
      · exact ih
      · exact List.Sublist.cons₂ _ ih

/-- Replacing a record in place with one holding the same port leaves the
port multiset unchanged (given well-formed keys). -/
theorem portsOf_map_setEntry_same {m : Registry} {id : String}
    {p r : PreviewRec} (hk : (keysOf m).Nodup) (hg : regGet m id = some p)
    (hp : r.port = p.port) :
    portsOf (m.map (setEntry id r)) = portsOf m := by
  induction m with
  | nil => cases hg
  | cons e t ih =>
    simp only [keysOf, List.map_cons, List.nodup_cons] at hk
    by_cases he : (e.1 == id) = true
    · have heq : e.1 = id := beq_iff_eq.mp he
      simp only [regGet, List.find?_cons, he] at hg
      cases hg
      have hnot : id ∉ keysOf t := by rw [← heq]; exact hk.1
      simp only [List.map_cons]
      rw [map_setEntry_of_not_mem r hnot]
      have hse : setEntry id r e = (id, r) := by simp [setEntry, he]
      rw [hse]
      simp [portsOf, List.filterMap_cons, hp]
    · have hse : setEntry id r e = e := by simp [setEntry, he]
      simp only [regGet, List.find?_cons, he] at hg
      have h2 := ih hk.2 hg
      simp only [portsOf] at h2
      simp only [List.map_cons, hse, portsOf, List.filterMap_cons, h2]

/- ========= Invariant preservation ========= -/

theorem invReg_regSet_fresh {m : Registry} {id : String} {r : PreviewRec}
    (hm : InvReg m) (hh : regHas m id = false)
    (hp : r.port = none ∨ ∃ c, r.port = some c ∧ portTaken m c = false) :
    InvReg (regSet m id r) := by
  rw [regSet, if_neg (by simp [hh])]
  constructor
  · rw [keysOf_append_single, List.nodup_append]
    refine ⟨hm.1, List.nodup_singleton id, ?_⟩
    intro k hk hk2
    have hki : k = id := by simpa using hk2
    rw [hki] at hk
    have hmem := (regHas_iff_mem_keys m id).mpr hk
    rw [hh] at hmem
    exact Bool.false_ne_true hmem
  · rw [portsOf_append_single, List.nodup_append]
    refine ⟨hm.2, ?_, ?_⟩
    · cases hr : r.port <;> simp
    · intro c hc hc2
      rcases hp with hp | ⟨c2, hc3, hc4⟩
      · simp [hp] at hc2
      · have hcc : c = c2 := by simpa [hc3] using hc2
        rw [hcc] at hc
        have hmem := (portTaken_iff_mem_ports m c2).mpr hc
        rw [hc4] at hmem
        exact Bool.false_ne_true hmem

theorem invReg_regSet_none {m : Registry} {id : String} {r : PreviewRec}
    (hm : InvReg m) (hp : r.port = none) : InvReg (regSet m id r) := by
  by_cases hh : regHas m id = true
  · rw [regSet, if_pos hh]
    constructor
    · rw [keysOf_map_setEntry]; exact hm.1
    · exact List.Nodup.sublist (portsOf_map_setEntry_sublist m id hp) hm.2
  · exact invReg_regSet_fresh hm (Bool.of_not_eq_true hh) (Or.inl hp)

theorem invReg_regSet_same {m : Registry} {id : String} {p r : PreviewRec}
    (hm : InvReg m) (hg : regGet m id = some p) (hp : r.port = p.port) :
    InvReg (regSet m id r) := by
  rw [regSet, if_pos (regHas_true_of_regGet hg)]
  exact ⟨by rw [keysOf_map_setEntry]; exact hm.1,
         by rw [portsOf_map_setEntry_same hm.1 hg hp]; exact hm.2⟩

theorem invReg_filter {m : Registry} (q : String × PreviewRec → Bool)
    (hm : InvReg m) : InvReg (m.filter q) := by
  have hs : List.Sublist (m.filter q) m := List.filter_sublist m
  constructor
  · exact List.Nodup.sublist (List.Sublist.map Prod.fst hs) hm.1
  · have h2 := List.Sublist.filterMap (fun e : String × PreviewRec => e.2.port) hs
    exact List.Nodup.sublist h2 hm.2

theorem invReg_regDelete {m : Registry} (id : String) (hm : InvReg m) :
    InvReg (regDelete m id) := invReg_filter _ hm

/-- State-level invariant: claim C1's registry well-formedness. -/
def Inv (s : St) : Prop := InvReg s.previews

theorem inv_touchStatus {s : St} (id : String) (st2 : Status) (h : Inv s) :
    Inv (touchStatus s id st2) := by
  unfold touchStatus
  cases hg : regGet s.previews id with
  | none => exact h
  | some p => exact invReg_regSet_same h hg rfl

theorem inv_proxyTail {s : St} {id : String} {p : PreviewRec} (req : Req)
    (now : Nat) (h : Inv s) (hg : regGet s.previews id = some p) :
    Inv (proxyTail s id p req now).st := by
  unfold proxyTail
  cases hp : p.port with
  | none => exact h
  | some pt => exact invReg_regSet_same h hg (by rw [hp])

theorem regGet_isSome_of_regHas {m : Registry} {id : String}
    (h : regHas m id = true) : (regGet m id).isSome = true := by
  induction m with
  | nil => simp [regHas] at h
  | cons e t ih =>
    by_cases he : (e.1 == id) = true
    · simp [regGet, List.find?_cons, he]
    · simp only [regHas, List.any_cons, he, Bool.false_or] at h
      unfold regGet
      rw [List.find?_cons_of_neg _ (by simpa using he)]
      exact ih h

theorem regHas_false_of_regGet_none {m : Registry} {id : String}
    (h : regGet m id = none) : regHas m id = false := by
  by_cases hh : regHas m id = true
  · have := regGet_isSome_of_regHas hh
    rw [h] at this
    cases this
  · exact Bool.of_not_eq_true hh

theorem inv_healTail {s1 : St} (id : String) (req : Req) (now : Nat)
    (rdy : Bool) (eff : Effects) (h : Inv s1) :
    Inv (healTail s1 id req now rdy eff).st := by
  unfold healTail
  cases rdy with
  | false =>
    rw [if_neg (by simp)]
    exact invReg_regDelete id h
  | true =>
    rw [if_pos rfl]
    have h2 : Inv (touchStatus s1 id .running) := inv_touchStatus id .running h
    cases hg : regGet (touchStatus s1 id .running).previews id with
    | none => exact h2
    | some p2 => exact inv_proxyTail req now h2 hg

/- ========= The transition system of registry-mutating operations ========= -/

/-- One registry-mutating operation of the orchestrator, with all
externally determined parameters universally quantified: fresh create
(`POST /previews` / `handleLocalDeployment`), the two outcomes of the
readiness wait, local and external patch, external-deploy registration,
explicit delete, the dev-process exit callback, an idle-reaper tick, and
one gateway hit (fast path, self-healing, or terminal). -/
inductive Step : St → St → Prop
  | create {s id files logs pid now o} :
      createLocal s id files logs pid now = some o → Step s o.st
  | waitOk {s} (id : String) : Step s (touchStatus s id .running)
  | waitBad {s} (id : String) :
      Step s { s with previews := regDelete s.previews id }
  | patch {s id files now out} :
      patchLocal s id files now = some out → Step s out.1
  | extPatch {s id newUrl now s2} :
      patchExternal s id newUrl now = some s2 → Step s s2
  | extDeploy {s} (id platform url dir : String) (logs : Ring) (now : Nat) :
      Step s (registerExternal s id platform url dir logs now)
  | del {s} (id : String) : Step s (deletePreview s id).1
  | exitDev {s} (id code sig : String) : Step s (procExit s id code sig).1
  | reap {s} (now : Nat) : Step s (reapTick s now).1
  | gate {s} (id : String) (req : Req) (logs : Ring) (pid : Pid) (now : Nat)
      (dE nI iOk rdy : Bool) (err : String) :
      Step s (gatewayHit s id req logs pid now dE nI iOk rdy err).st

/-- States reachable from boot by any interleaving of operations. -/
inductive Reachable : St → Prop
  | init : Reachable initSt
  | step {s t} : Reachable s → Step s t → Reachable t

theorem inv_createLocal {s : St} {id : String} {files : List JsFile}
    {logs : Ring} {pid : Pid} {now : Nat} {o : CreateOut} (h : Inv s)
    (hc : createLocal s id files logs pid now = some o) : Inv o.st := by
  unfold createLocal at hc
  by_cases hh : regHas s.previews id = true
  · rw [if_pos hh] at hc; cases hc
  · rw [if_neg hh] at hc
    cases hfp : nextFreePort s.previews s.lastPort with
    | none => rw [hfp] at hc; cases hc
    | some port =>
      rw [hfp] at hc
      cases hc
      exact invReg_regSet_fresh h (Bool.of_not_eq_true hh)
        (Or.inr ⟨port, rfl, nextFreePort_not_taken _ _ _ hfp⟩)

theorem inv_gatewayHit {s : St} (id : String) (req : Req) (logs : Ring)
    (pid : Pid) (now : Nat) (dE nI iOk rdy : Bool) (err : String)
    (h : Inv s) : Inv (gatewayHit s id req logs pid now dE nI iOk rdy err).st := by
  unfold gatewayHit
  cases hg : regGet s.previews id with
  | some p => exact inv_proxyTail req now h hg
  | none =>
    cases dE with
    | false => exact h
    | true =>
      rw [if_pos rfl]
      by_cases hni : (nI && !iOk) = true
      · rw [if_pos hni]; exact h
      · rw [if_neg hni]
        cases hfp : nextFreePort s.previews s.lastPort with
        | none => exact h
        | some port =>
          have hh : regHas s.previews id = false := regHas_false_of_regGet_none hg
          have hinv1 : InvReg (regSet s.previews id
              (newRec port pid (previewDir id) now logs)) :=
            invReg_regSet_fresh h hh
              (Or.inr ⟨port, rfl, nextFreePort_not_taken _ _ _ hfp⟩)
          exact inv_healTail id req now rdy { spawned := [pid] } hinv1

theorem inv_step {s t : St} (h : Inv s) (hs : Step s t) : Inv t := by
  cases hs with
  | create hc => exact inv_createLocal h hc
  | waitOk id => exact inv_touchStatus id .running h
  | waitBad id => exact invReg_regDelete id h
  | patch hc =>
    unfold patchLocal at hc
    split at hc
    · cases hc
    · rename_i p hg
      split at hc
      · cases hc
      · cases hc
        exact invReg_regSet_same h hg rfl
  | extPatch hc =>
    unfold patchExternal at hc
    split at hc
    · cases hc
    · rename_i p hg
      split at hc
      · cases hc
        exact invReg_regSet_same h hg rfl
      · cases hc
  | extDeploy id platform url dir logs now =>
    exact invReg_regSet_none h rfl
  | del id =>
    unfold deletePreview
    cases hg : regGet s.previews id with
    | none => exact h
    | some p => exact invReg_regDelete id h
  | exitDev id code sig =>
    unfold procExit
    cases hg : regGet s.previews id with
    | none => exact h
    | some p => exact invReg_regDelete id h
  | reap now => exact invReg_filter _ h
  | gate id req logs pid now dE nI iOk rdy err =>
    exact inv_gatewayHit id req logs pid now dE nI iOk rdy err h

theorem inv_init : Inv initSt := by
  constructor <;> simp [initSt, keysOf, portsOf]

theorem inv_reachable {s : St} (h : Reachable s) : Inv s := by
  induction h with
  | init => exact inv_init
  | step _ hs ih => exact inv_step ih hs

/- ========= String / URL lemmas ========= -/

theorem isPrefixOf_append_self (l r : List Char) :
    l.isPrefixOf (l ++ r) = true := by
  induction l with
  | nil => simp [List.isPrefixOf]
  | cons c cs ih => simp [List.isPrefixOf, ih]

theorem replaceFirstL_self (pat rest : List Char) :
    replaceFirstL pat (pat ++ rest) = rest := by
  cases hp : pat with
  | nil =>
    simp only [List.nil_append]
    cases rest with
    | nil => rfl
    | cons c cs => simp [replaceFirstL, List.isPrefixOf]
  | cons pc pcs =>
    have hl : (pc :: pcs) ++ rest = pc :: (pcs ++ rest) := List.cons_append pc pcs rest
    rw [hl, replaceFirstL]
    have hpre : (pc :: pcs).isPrefixOf (pc :: (pcs ++ rest)) = true := by
      rw [← hl]
      exact isPrefixOf_append_self (pc :: pcs) rest
    rw [if_pos hpre]
    have h1 : (pc :: pcs).length = pcs.length + 1 := rfl
    rw [h1, List.drop_succ_cons]
    exact List.drop_left pcs rest

theorem rewriteUrl_strip (id rest : String) :
    rewriteUrl ("/p/" ++ id ++ rest) id = if rest = "" then "/" else rest := by
  unfold rewriteUrl
  have hdata : ("/p/" ++ id ++ rest).data = ("/p/" ++ id).data ++ rest.data := by
    simp [String.data_append]
  rw [hdata, replaceFirstL_self]
  unfold jsOrSlash
  by_cases hr : rest = ""
  · have hrd : rest.data = [] := by rw [hr]
    rw [if_pos hrd, if_pos hr]
  · have hrd : rest.data ≠ [] := by
      intro hh
      exact hr (String.ext (by rw [hh]))
    rw [if_neg hrd, if_neg hr]

theorem takeWhile_append_eq (q : Char → Bool) (a b : List Char)
    (ha : ∀ c ∈ a, q c = true)
    (hb : b = [] ∨ ∃ h t, b = h :: t ∧ q h = false) :
    (a ++ b).takeWhile q = a := by
  induction a with
  | nil =>
    rcases hb with hb | ⟨h0, t0, hb, hq⟩
    · rw [hb]; rfl
    · rw [List.nil_append, hb]
      simp [List.takeWhile_cons, hq]
  | cons c cs ih =>
    have hc : q c = true := ha c (List.mem_cons_self c cs)
    simp only [List.cons_append, List.takeWhile_cons, hc, if_true]
    rw [ih (fun d hd => ha d (List.mem_cons_of_mem c hd))]

/- ========= Filter lemmas for the reaper ========= -/

theorem regGet_filter_keep {m : Registry} {id : String} {p : PreviewRec}
    (q : String × PreviewRec → Bool) (hg : regGet m id = some p)
    (hq : q (id, p) = true) : regGet (m.filter q) id = some p := by
  induction m with
  | nil => cases hg
  | cons e t ih =>
    by_cases he : (e.1 == id) = true
    · have h1 : e.1 = id := beq_iff_eq.mp he
      simp only [regGet, List.find?_cons, he] at hg
      have h2 : e.2 = p := by injection hg
      have heq : e = (id, p) := by
        obtain ⟨e1, e2⟩ := e
        simp only at h1 h2
        rw [h1, h2]
      rw [List.filter_cons, heq, if_pos hq]
      simp [regGet, List.find?_cons]
    · simp only [regGet, List.find?_cons, he] at hg
      have hrec := ih hg
      rw [List.filter_cons]
      by_cases hqe : q e = true
      · rw [if_pos hqe]
        simp only [regGet, List.find?_cons, he]
        simpa [regGet] using hrec
      · rw [if_neg hqe]
        exact hrec

theorem regGet_filter_drop {m : Registry} {id : String} {p : PreviewRec}
    (q : String × PreviewRec → Bool) (hk : (keysOf m).Nodup)
    (hg : regGet m id = some p) (hq : q (id, p) = false) :
    regGet (m.filter q) id = none := by
  induction m with
  | nil => cases hg
  | cons e t ih =>
    simp only [keysOf, List.map_cons, List.nodup_cons] at hk
    by_cases he : (e.1 == id) = true
    · have h1 : e.1 = id := beq_iff_eq.mp he
      simp only [regGet, List.find?_cons, he] at hg
      have h2 : e.2 = p := by injection hg
      have heq : e = (id, p) := by
        obtain ⟨e1, e2⟩ := e
        simp only at h1 h2
        rw [h1, h2]
      rw [List.filter_cons, heq, hq]
      simp only [Bool.false_eq_true, if_false]
      have hnot : id ∉ keysOf t := by rw [← h1]; exact hk.1
      apply regGet_none_of_regHas_false
      cases hr : regHas (t.filter q) id
      · rfl
      · have hmem := (regHas_iff_mem_keys _ id).mp hr
        have hsub : List.Sublist (keysOf (t.filter q)) (keysOf t) :=
          List.Sublist.map Prod.fst (List.filter_sublist t)
        exact absurd (hsub.subset hmem) hnot
    · simp only [regGet, List.find?_cons, he] at hg
      have hrec := ih hk.2 hg
      rw [List.filter_cons]
      by_cases hqe : q e = true
      · rw [if_pos hqe]
        simp only [regGet, List.find?_cons, he]
        simpa [regGet] using hrec
      · rw [if_neg hqe]
        exact hrec

/- ========= Concrete states used by the witnesses ========= -/

def wRing : Ring := { cap := 4000, buf := ["next dev\n", "ready on 4000\n"] }

def wRec : PreviewRec :=
  { port := some 4000, proc := some 1, dir := previewDir "demo", lastHit := 0,
    status := .running, logs := wRing, lastError := none }

def wSt : St := { previews := [("demo", wRec)], lastPort := 4000 }

def wRec2 : PreviewRec :=
  { port := some 4001, proc := some 2, dir := previewDir "demo", lastHit := 9,
    status := .starting, logs := wRing, lastError := none }

def wSt2 : St := { previews := [("demo", wRec2)], lastPort := 4001 }

def wRecIdle : PreviewRec :=
  { port := some 4002, proc := some 3, dir := previewDir "idle", lastHit := 0,
    status := .running, logs := wRing, lastError := none }

def wStIdle : St := { previews := [("idle", wRecIdle)], lastPort := 4002 }

def wOut : CreateOut :=
  { st := { previews := [("demo", newRec 4000 7 (previewDir "demo") 0 wRing)],
            lastPort := 4000 },
    port := 4000,
    eff := { writes := [(previewDir "demo", [])], spawned := [7] } }

def wReq : Req :=
  { method := "POST", headers := [("x-a", "b")], body := "hi",
    url := "/p/demo/foo?x=1" }

def cReq : Req := { method := "GET", headers := [], body := "", url := "/p/demo" }

/- ========= Claims ========= -/

/-- C1: at every reachable registry state each preview id maps to at most
one live record and no two live records simultaneously holding a port
share a port (`InvReg`); every registry-mutating operation (the `Step`
relation: create, patch, external-deploy registration, delete, crash
cleanup, idle reap, gateway self-healing restart) preserves this, and the
port allocator never returns a port currently held by any live record. -/
theorem C1_registry_invariant (s : St) (h : Reachable s) :
    InvReg s.previews ∧
      ∀ c : Nat, nextFreePort s.previews s.lastPort = some c →
        c ∉ portsOf s.previews :=
  ⟨inv_reachable h, fun c hc => nextFreePort_not_mem _ _ c hc⟩

/-- Witness for C1 at the boot state. -/
theorem C1_registry_invariant_witness :
    InvReg initSt.previews ∧ (4000 : Nat) ∉ portsOf initSt.previews :=
  ⟨(C1_registry_invariant initSt Reachable.init).1,
   (C1_registry_invariant initSt Reachable.init).2 4000 (by decide)⟩

/-- The record object as the exit handler leaves it: status crashed and
the exit code/signal recorded in `lastError`. -/
def crashedOf (p : PreviewRec) (code sig : String) : PreviewRec :=
  { p with
      status := .crashed,
      lastError := some ("dev exited code=" ++ code ++ " signal=" ++ sig) }

/-- C2: whenever a supervised dev-server process exits, the exit callback
flips the record's status to crashed, records the exit code and signal in
`lastError`, and removes that id's record from the registry (so the next
traffic hit finds no record and re-provisions instead of proxying). -/
theorem C2_exit_flip_and_remove (s : St) (id code sig : String)
    (p : PreviewRec) (hg : regGet s.previews id = some p) :
    regGet (procExit s id code sig).1.previews id = none ∧
      (procExit s id code sig).2 = some (crashedOf p code sig) := by
  simp only [procExit, hg]
  exact ⟨regGet_regDelete_self s.previews id, rfl⟩

/-- Witness for C2 at a concrete one-record state. -/
theorem C2_exit_flip_and_remove_witness :
    regGet (procExit wSt "demo" "1" "null").1.previews "demo" = none ∧
      (procExit wSt "demo" "1" "null").2 = some (crashedOf wRec "1" "null") :=
  C2_exit_flip_and_remove wSt "demo" "1" "null" wRec (by decide)

/-- C3: a create/patch request whose id already has a live local record
writes the submitted files into the record's existing directory and
refreshes `lastHit`, leaving port, process handle, directory and status
unchanged; no port is reallocated, no process spawned, none killed. -/
theorem C3_patch_frame (s : St) (id : String) (files : List JsFile)
    (now : Nat) (p : PreviewRec) (hg : regGet s.previews id = some p)
    (he : p.externalPlatform = none) :
    ∃ s2 resp eff, patchLocal s id files now = some (s2, resp, eff) ∧
      regGet s2.previews id = some { p with lastHit := now } ∧
      eff.writes = [(p.dir, files)] ∧ eff.spawned = [] ∧ eff.killed = [] ∧
      s2.lastPort = s.lastPort ∧ resp.portField = p.port := by
  have hiss : ¬ (p.externalPlatform.isSome = true) := by rw [he]; simp
  refine ⟨{ s with previews := regSet s.previews id { p with lastHit := now } },
          { code := 200, body := "/p/" ++ id, portField := p.port },
          { writes := [(p.dir, files)] }, ?_, ?_, rfl, rfl, rfl, rfl, rfl⟩
  · simp only [patchLocal, hg]
    rw [if_neg hiss]
  · exact regGet_regSet_self s.previews id { p with lastHit := now }

/-- Witness for C3 at a concrete one-record state. -/
theorem C3_patch_frame_witness :
    ∃ s2 resp eff,
      patchLocal wSt "demo" [("app/page.tsx", "x")] 5 = some (s2, resp, eff) ∧
      regGet s2.previews "demo" = some { wRec with lastHit := 5 } ∧
      eff.writes = [(wRec.dir, [("app/page.tsx", "x")])] ∧ eff.spawned = [] ∧
      eff.killed = [] ∧ s2.lastPort = wSt.lastPort ∧
      resp.portField = wRec.port :=
  C3_patch_frame wSt "demo" [("app/page.tsx", "x")] 5 wRec (by decide) (by decide)

/-- C5: with `wait` enabled, a readiness timeout deletes the record (it
does not persist), the 500 error response carries the trailing 4000
characters of the captured ring text, and the spawned process receives no
kill signal. -/
theorem C5_wait_timeout (s : St) (id : String) (files : List JsFile)
    (logs : Ring) (pid : Pid) (now : Nat) (o : CreateOut)
    (hc : createLocal s id files logs pid now = some o) :
    ∃ s2 resp, createWithWait s id files logs pid now false =
        some (s2, resp, o.eff) ∧
      regGet s2.previews id = none ∧
      resp.code = 500 ∧ resp.body = "dev did not become ready in time" ∧
      resp.logsField = some (jsSliceLast 4000 logs.text) ∧
      o.eff.spawned = [pid] ∧ o.eff.killed = [] := by
  have hc2 := hc
  unfold createLocal at hc
  split at hc
  · cases hc
  · split at hc
    · cases hc
    · rename_i port hfp
      cases hc
      refine ⟨{ previews := regDelete
                  (regSet s.previews id (newRec port pid (previewDir id) now logs)) id,
                lastPort := port },
              { code := 500, body := "dev did not become ready in time",
                logsField := some (jsSliceLast 4000 logs.text) },
              ?_, ?_, rfl, rfl, rfl, rfl, rfl⟩
      · unfold createWithWait
        rw [hc2]
        rfl
      · exact regGet_regDelete_self _ id

/-- Witness for C5: a concrete create whose probe never succeeds. -/
theorem C5_wait_timeout_witness :
    ∃ s2 resp, createWithWait initSt "demo" [] wRing 7 0 false =
        some (s2, resp, wOut.eff) ∧
      regGet s2.previews "demo" = none ∧
      resp.code = 500 ∧ resp.body = "dev did not become ready in time" ∧
      resp.logsField = some (jsSliceLast 4000 wRing.text) ∧
      wOut.eff.spawned = [7] ∧ wOut.eff.killed = [] :=
  C5_wait_timeout initSt "demo" [] wRing 7 0 wOut (by decide)

/-- C9: the dev-process exit handler removes whatever record is currently
registered under the id without checking that the record's process handle
is the exiting process: even when the record's process is not the exiting
one (the record was replaced since the old process was spawned), the old
process's exit still deletes the newer record. -/
theorem C9_exit_ignores_proc (s : St) (id code sig : String)
    (p : PreviewRec) (oldPid : Pid) (hg : regGet s.previews id = some p)
    (_hne : p.proc ≠ some oldPid) :
    regGet (procExit s id code sig).1.previews id = none := by
  simp only [procExit, hg]
  exact regGet_regDelete_self s.previews id

/-- Witness for C9: the record holds process 2, yet the exit of the
replaced process 1 removes it. -/
theorem C9_exit_ignores_proc_witness :
    regGet (procExit wSt2 "demo" "0" "SIGTERM").1.previews "demo" = none :=
  C9_exit_ignores_proc wSt2 "demo" "0" "SIGTERM" wRec2 1 (by decide) (by decide)

/-- C7: on a reaper tick, every record idle for more than 30 minutes
(`staleRec now p`, i.e. `now - lastHit > 30*60*1000`) has a termination
signal attempted on its process (errors and absent processes ignored by
the surrounding try/catch) and is removed from the registry; records not
past the threshold are kept untouched, and no directory is ever wiped. -/
theorem C7_reaper_tick (s : St) (now : Nat) (id : String) (p : PreviewRec)
    (hk : (keysOf s.previews).Nodup) (hg : regGet s.previews id = some p) :
    (staleRec now p = true →
        regGet (reapTick s now).1.previews id = none ∧
          ∀ pid, p.proc = some pid → pid ∈ (reapTick s now).2.killed) ∧
      (staleRec now p = false →
        regGet (reapTick s now).1.previews id = some p) ∧
      (reapTick s now).2.wiped = [] := by
  refine ⟨fun hstale => ⟨?_, ?_⟩, fun hfresh => ?_, rfl⟩
  · show regGet (s.previews.filter fun e => !(staleRec now e.2)) id = none
    apply regGet_filter_drop _ hk hg
    simp [hstale]
  · intro pid hpid
    show pid ∈ (s.previews.filter fun e => staleRec now e.2).filterMap
        fun e => e.2.proc
    apply List.mem_filterMap.mpr
    refine ⟨(id, p), ?_, hpid⟩
    exact List.mem_filter.mpr ⟨mem_of_regGet hg, hstale⟩
  · show regGet (s.previews.filter fun e => !(staleRec now e.2)) id = some p
    apply regGet_filter_keep _ hg
    simp [hfresh]

/-- Witness for C7: a record idle for 30 minutes plus a millisecond is
reaped and its process signalled; no directory is wiped. -/
theorem C7_reaper_tick_witness :
    (regGet (reapTick wStIdle 1800001).1.previews "idle" = none ∧
        (3 : Pid) ∈ (reapTick wStIdle 1800001).2.killed) ∧
      (reapTick wStIdle 1800001).2.wiped = [] :=
  have h := C7_reaper_tick wStIdle 1800001 "idle" wRecIdle (by decide) (by decide)
  ⟨⟨(h.1 (by decide)).1, (h.1 (by decide)).2 3 (by decide)⟩, h.2.2⟩

/-- C4: a proxied HTTP request to /p/{id}... for a live local record is
forwarded to the record's port with the /p/{id} strip applied to the URL
(the first occurrence — the leading one — is removed, defaulting to "/"
when nothing remains), method, headers and body passed through unchanged,
`lastHit` refreshed, and no terminal response written. -/
theorem C4_proxy_rewrite (s : St) (id rest : String) (req : Req)
    (logs : Ring) (pid : Pid) (now : Nat) (dE nI iOk rdy : Bool)
    (err : String) (p : PreviewRec) (pt : Nat)
    (hg : regGet s.previews id = some p) (hp : p.port = some pt)
    (hu : req.url = "/p/" ++ id ++ rest) :
    (gatewayHit s id req logs pid now dE nI iOk rdy err).proxied =
        some (pt, { req with url := if rest = "" then "/" else rest }) ∧
      regGet (gatewayHit s id req logs pid now dE nI iOk rdy err).st.previews id =
        some { p with lastHit := now } ∧
      (gatewayHit s id req logs pid now dE nI iOk rdy err).resp = none := by
  have hrw : rewriteUrl req.url id = if rest = "" then "/" else rest := by
    rw [hu, rewriteUrl_strip]
  refine ⟨?_, ?_, ?_⟩
  · simp only [gatewayHit, hg, proxyTail, hp, hrw]
  · simp only [gatewayHit, hg, proxyTail, hp]
    exact regGet_regSet_self s.previews id _
  · simp only [gatewayHit, hg, proxyTail, hp]

/-- Witness for C4: /p/demo/foo?x=1 reaches the backend as /foo?x=1. -/
theorem C4_proxy_rewrite_witness :
    (gatewayHit wSt "demo" wReq wRing 9 3 false false false false "").proxied =
        some (4000, { wReq with url := "/foo?x=1" }) ∧
      regGet (gatewayHit wSt "demo" wReq wRing 9 3 false false false false "").st.previews "demo" =
        some { wRec with lastHit := 3 } ∧
      (gatewayHit wSt "demo" wReq wRing 9 3 false false false false "").resp = none :=
  C4_proxy_rewrite wSt "demo" "/foo?x=1" wReq wRing 9 3 false false false false ""
    wRec 4000 (by decide) (by decide) (by decide)

/-- C6 counterexample: with no record, an existing directory and a failed
dependency installation, the gateway answers a hard 500
"Auto-install failed", not the transient 503 "starting, retry shortly"
response the claim promises for every failing provisioning step. -/
theorem C6_counterexample :
    (gatewayHit initSt "demo" cReq wRing 1 0 true true false true "npm exited 1").resp =
        some { code := 500, body := "Auto-install failed: npm exited 1" } ∧
      (gatewayHit initSt "demo" cReq wRing 1 0 true true false true "npm exited 1").resp ≠
        some { code := 503,
               body := "Preview is starting. Please retry in a few seconds." } := by
  decide

/-- C6 (amended): traffic for a missing record with an existing on-disk
directory synchronously re-provisions (install if needed, allocate,
spawn, probe); a readiness-probe failure deletes the record and yields
the transient 503 "starting, retry shortly" response, while a
dependency-installation failure yields a hard 500 "Auto-install failed"
response with the registry untouched. -/
theorem C6_selfheal_responses (s : St) (id : String) (req : Req)
    (logs : Ring) (pid : Pid) (now : Nat) (nI iOk rdy : Bool) (err : String)
    (hg : regGet s.previews id = none) :
    ((nI && !iOk) = true →
        (gatewayHit s id req logs pid now true nI iOk rdy err).resp =
            some { code := 500, body := "Auto-install failed: " ++ err } ∧
          (gatewayHit s id req logs pid now true nI iOk rdy err).st = s) ∧
      ∀ port, nextFreePort s.previews s.lastPort = some port →
        (nI && !iOk) = false →
        (gatewayHit s id req logs pid now true nI iOk false err).resp =
            some { code := 503,
                   body := "Preview is starting. Please retry in a few seconds." } ∧
          regGet (gatewayHit s id req logs pid now true nI iOk false err).st.previews id =
            none ∧
          (gatewayHit s id req logs pid now true nI iOk false err).eff.spawned = [pid] := by
  constructor
  · intro hfail
    simp only [gatewayHit, hg, if_pos rfl, hfail]
    exact ⟨rfl, rfl⟩
  · intro port hfp hok
    simp only [gatewayHit, hg, if_pos rfl, hok, hfp]
    simp only [healTail, Bool.false_eq_true, if_false]
    refine ⟨rfl, ?_, rfl⟩
    exact regGet_regDelete_self _ id

/-- Witness for C6 at concrete states: install failure gives the hard
500; probe failure gives the transient 503 with the record deleted. -/
theorem C6_selfheal_responses_witness :
    ((gatewayHit initSt "demo" cReq wRing 1 0 true true false true "boom").resp =
        some { code := 500, body := "Auto-install failed: boom" } ∧
      (gatewayHit initSt "demo" cReq wRing 1 0 true true false true "boom").st = initSt) ∧
    ((gatewayHit initSt "demo" cReq wRing 1 0 true false true false "boom").resp =
        some { code := 503,
               body := "Preview is starting. Please retry in a few seconds." } ∧
      regGet (gatewayHit initSt "demo" cReq wRing 1 0 true false true false "boom").st.previews "demo" =
        none ∧
      (gatewayHit initSt "demo" cReq wRing 1 0 true false true false "boom").eff.spawned = [1]) :=
  ⟨(C6_selfheal_responses initSt "demo" cReq wRing 1 0 true false true "boom"
      (by decide)).1 (by decide),
   (C6_selfheal_responses initSt "demo" cReq wRing 1 0 false true false "boom"
      (by decide)).2 4000 (by decide) (by decide)⟩

/-- C8 counterexample: the claim covers the status (and logs) endpoints,
but the source installs no `requireAuth` on them: with a secret
configured and an absent/incorrect Authorization header, the status
endpoint still runs its handler and answers 404/200, never 401 — even
though `requireAuth` itself would have rejected that header. -/
theorem C8_counterexample :
    routeGuarded .statusR = false ∧ routeGuarded .logsR = false ∧
      dispatch .statusR "s3cret" "" (statusEndpoint initSt "demo") =
        { code := 404, body := "not_found" } ∧
      dispatch .statusR "s3cret" "" (statusEndpoint initSt "demo") ≠
        { code := 401, body := "unauthorized" } ∧
      requireAuth "s3cret" "" = some { code := 401, body := "unauthorized" } := by
  decide

/-- C8 (amended): when a management secret is configured, the guarded
management endpoints (deploy, create/patch, delete, command execution)
reject any request whose Authorization header is not exactly
`Bearer <secret>` with 401 unauthorized, while the status and logs
endpoints, the /p/{id} traffic route and WebSocket upgrades carry no
credential check at all. -/
theorem C8_auth_guards (token hdr : String) (h : Response)
    (ht : token ≠ "") (hh : hdr ≠ "Bearer " ++ token) :
    (∀ r, routeGuarded r = true →
        dispatch r token hdr h = { code := 401, body := "unauthorized" }) ∧
      (∀ r, routeGuarded r = false → dispatch r token hdr h = h) ∧
      routeGuarded .deployR = true ∧ routeGuarded .createR = true ∧
      routeGuarded .deleteR = true ∧ routeGuarded .executeR = true ∧
      routeGuarded .statusR = false ∧ routeGuarded .logsR = false ∧
      routeGuarded .trafficR = false ∧ routeGuarded .wsR = false := by
  refine ⟨fun r hr => ?_, fun r hr => ?_, rfl, rfl, rfl, rfl, rfl, rfl, rfl, rfl⟩
  · unfold dispatch
    rw [hr, if_pos rfl]
    unfold requireAuth
    rw [if_neg ht, if_neg hh]
  · unfold dispatch
    rw [hr]
    simp

/-- Witness for C8 with a configured secret and a wrong bearer header. -/
theorem C8_auth_guards_witness :
    dispatch .createR "s3cret" "Bearer nope" { code := 200, body := "x" } =
        { code := 401, body := "unauthorized" } ∧
      dispatch .statusR "s3cret" "Bearer nope" { code := 200, body := "x" } =
        { code := 200, body := "x" } :=
  ⟨(C8_auth_guards "s3cret" "Bearer nope" { code := 200, body := "x" }
      (by decide) (by decide)).1 .createR rfl,
   (C8_auth_guards "s3cret" "Bearer nope" { code := 200, body := "x" }
      (by decide) (by decide)).2.1 .statusR rfl⟩

/-- C10: a WebSocket upgrade matching /p/{id} is forwarded to the
record's port with the request URL unmodified (no prefix strip); with no
live record the client socket is destroyed immediately; in both cases
the registry is untouched — no self-healing from disk, no lastHit
refresh. -/
theorem C10_ws_upgrade (s : St) (url id rest : String)
    (hu : url = "/p/" ++ id ++ rest)
    (hid : id.data ≠ [])
    (hslash : ∀ c ∈ id.data, (c == '/') = false)
    (hrest : rest.data = [] ∨ ∃ t, rest.data = '/' :: t) :
    (∀ p, regGet s.previews id = some p →
        wsUpgrade s url = (s, .forward p.port url)) ∧
      (regGet s.previews id = none → wsUpgrade s url = (s, .destroy)) := by
  have hd : url.data = '/' :: 'p' :: '/' :: (id.data ++ rest.data) := by
    rw [hu]
    simp [String.data_append]
  have htake : (id.data ++ rest.data).takeWhile (fun ch => !(ch == '/')) = id.data := by
    apply takeWhile_append_eq
    · intro c hc
      simp [hslash c hc]
    · rcases hrest with hrest | ⟨t, hrest⟩
      · exact Or.inl hrest
      · exact Or.inr ⟨'/', t, hrest, by simp⟩
  have hmatch : wsMatchL url.data = some id.data := by
    rw [hd]
    simp only [wsMatchL, htake]
    rw [if_neg hid]
  constructor
  · intro p hp
    have hp2 : regGet s.previews (String.mk id.data) = some p := hp
    simp only [wsUpgrade, hmatch, hp2]
  · intro hp
    have hp2 : regGet s.previews (String.mk id.data) = none := hp
    simp only [wsUpgrade, hmatch, hp2]

/-- Witness for C10: forward with the URL kept intact; destroy when the
registry has no record. -/
theorem C10_ws_upgrade_witness :
    wsUpgrade wSt "/p/demo" = (wSt, .forward (some 4000) "/p/demo") ∧
      wsUpgrade initSt "/p/demo" = (initSt, .destroy) :=
  ⟨(C10_ws_upgrade wSt "/p/demo" "demo" "" (by decide) (by decide) (by decide)
      (Or.inl (by decide))).1 wRec (by decide),
   (C10_ws_upgrade initSt "/p/demo" "demo" "" (by decide) (by decide) (by decide)
      (Or.inl (by decide))).2 (by decide)⟩

end Orch
